import Mathlib

/-!
Shallow embedding of the core of `src/python/leverage_service.py` (the
"universe"/planet variant of the honey server, which the spec designates as
authoritative): the leverage-scoring engine (`calculate_leverage_multiplier`),
the battle resolver and world mutation inside `_simulate_battle`, the
per-target battle coordination of `attack_planet`, the throttled
`send_game_state` broadcaster and the `disconnect` session teardown.

Numbers: Python floats are modelled as rationals (`ℚ`) with the source's
decimal constants taken exactly (0.05 = 5/100, 0.7 = 7/10, ...); Python ints
are `ℤ` (or `ℕ` for unit counts); Python dicts are association lists with the
first binding authoritative, as produced by `updateA` below.
-/

namespace Honey

/-- Association-list lookup: Python `d[k]` / `d.get(k)` on a dict modelled as
a list of key-value pairs. -/
def lookupA {α : Type} (l : List (String × α)) (k : String) : Option α :=
  match l with
  | [] => none
  | (k', v) :: t => if k' = k then some v else lookupA t k

/-- Association-list update: Python `d[k] = v`; replaces the first binding of
`k`, or appends a new binding when `k` is absent. -/
def updateA {α : Type} (l : List (String × α)) (k : String) (v : α) : List (String × α) :=
  match l with
  | [] => [(k, v)]
  | (k', v') :: t => if k' = k then (k, v) :: t else (k', v') :: updateA t k v

theorem lookupA_updateA_self {α : Type} (l : List (String × α)) (k : String) (v : α) :
    lookupA (updateA l k v) k = some v := by
  induction l with
  | nil => simp [updateA, lookupA]
  | cons h t ih =>
    by_cases hk : h.1 = k
    · simp [updateA, lookupA, hk]
    · simp [updateA, lookupA, hk, ih]

/-- A temporary buff stored in `leverage_data[wallet]['temp_buffs'][tech]`:
`{'level': ..., 'expires_at': ...}`. -/
structure Buff where
  level : ℚ
  expires_at : ℤ
deriving DecidableEq, Repr

/-- A character record as created by `create_character`. -/
structure Character where
  name : String
  faction : String
  level : ℚ
  experience : ℚ
  resources : List (String × ℚ)
deriving DecidableEq, Repr

/-- A mission record; only the `progress` field is read by the scoring engine. -/
structure Mission where
  progress : ℚ
deriving DecidableEq, Repr

/-- A territory record; only the fields read by the embedded operations are
kept (`id`, `controlledBy`, `defense`). -/
structure Territory where
  id : String
  controlledBy : Option String
  defense : ℤ
deriving DecidableEq, Repr

/-- The dict stored at `leverage_data[wallet]`.  Keys that may be absent in
the Python dict are `Option`s; `calculate_leverage_multiplier` writes the
`*_bonus` fields and `temp_buffs` back into it. -/
structure LeverageData where
  multiplier : ℚ
  territory_bonus : Option ℚ
  resource_bonus : Option ℚ
  mission_bonus : Option ℚ
  level_bonus : Option ℚ
  achievement_bonus : Option ℚ
  research : Option (List (String × ℚ))
  temp_buffs : Option (List (String × Buff))
deriving DecidableEq, Repr

/-- One entry of the `bonuses` dict in the scoring result. -/
structure BonusEntry where
  value : ℚ
  description : String
  max : ℚ
  progress : ℚ
deriving DecidableEq, Repr

/-- The extra fields the success path of the scoring engine returns beyond
`total` and `bonuses` (the unknown-character path returns only the latter
two, so these are optional in the result shape). -/
structure LevDetails where
  base_rate : ℚ
  efficiency : ℚ
  potential_increase : ℚ
  temp_buffs_detail : List (String × Buff)
deriving DecidableEq, Repr

/-- A dict-shaped scoring result: `total`, `bonuses` and, on the success
path, the remaining fields. -/
structure LevRecord where
  total : ℚ
  bonuses : List (String × BonusEntry)
  details : Option LevDetails
deriving DecidableEq, Repr

/-- The value `calculate_leverage_multiplier` returns: either the structured
dict of the normal paths or the bare number `1.0` of the
exception path (`return 1.0` in the `except` clause). -/
inductive LevResult where
  | numeric (q : ℚ)
  | record (r : LevRecord)
deriving DecidableEq, Repr

/-- The slice of `ConnectionManager` state the embedded operations read and
write. -/
structure ManagerState where
  characters : List (String × Character)
  territories : List Territory
  missions : List (String × List Mission)
  leverage_data : List (String × LeverageData)
  achievements : List (String × List String)
deriving DecidableEq, Repr

/-! The local quantities of `calculate_leverage_multiplier` (the Python
method's local variables), each as a named definition. -/

/-- `len([t for t in self.territories if t["controlledBy"] == wallet])`. -/
def territory_count (st : ManagerState) (wallet : String) : ℕ :=
  (st.territories.filter (fun t => t.controlledBy = some wallet)).length

/-- `min(territory_count * 0.05, 0.3)`. -/
def territory_bonus (st : ManagerState) (wallet : String) : ℚ :=
  min ((territory_count st wallet : ℚ) * (5/100)) (3/10)

/-- `len([r for r, amount in character["resources"].items() if amount > 0])`. -/
def unique_resources (ch : Character) : ℕ :=
  (ch.resources.filter (fun r => r.2 > 0)).length

/-- `min(unique_resources * 0.05, 0.2)`. -/
def resource_bonus (ch : Character) : ℚ :=
  min ((unique_resources ch : ℚ) * (5/100)) (2/10)

/-- `len([m for m in missions if m["progress"] == 100])`. -/
def completed_missions (ms : List Mission) : ℕ :=
  (ms.filter (fun m => m.progress = 100)).length

/-- `len([m for m in missions if 0 < m["progress"] < 100])`. -/
def active_missions (ms : List Mission) : ℕ :=
  (ms.filter (fun m => 0 < m.progress ∧ m.progress < 100)).length

/-- `min(completed * 0.025 + active * 0.01, 0.25)`. -/
def mission_bonus (ms : List Mission) : ℚ :=
  min ((completed_missions ms : ℚ) * (25/1000)
    + (active_missions ms : ℚ) * (1/100)) (25/100)

/-- `min((character["level"] - 1) * 0.05, 0.25)`. -/
def level_bonus (ch : Character) : ℚ :=
  min ((ch.level - 1) * (5/100)) (25/100)

/-- `len(self.achievements.get(wallet, []))`. -/
def achievement_count (st : ManagerState) (wallet : String) : ℕ :=
  ((lookupA st.achievements wallet).getD []).length

/-- `min(achievement_count * 0.02, 0.2)`. -/
def achievement_bonus (st : ManagerState) (wallet : String) : ℚ :=
  min ((achievement_count st wallet : ℚ) * (2/100)) (2/10)

/-- `min(sum of data['research'] values, 0.3)`. -/
def research_total (data : LeverageData) : ℚ :=
  min (((data.research.getD []).map (fun p => p.2)).sum) (3/10)

/-- The `cleaned` dict: the stored temp buffs that are unexpired
(`expires_at > now`) with a positive level. -/
def temp_cleaned (data : LeverageData) (now_ts : ℤ) : List (String × Buff) :=
  (data.temp_buffs.getD []).filter
    (fun p => decide (now_ts < p.2.expires_at ∧ 0 < p.2.level))

/-- `min(sum of kept levels, 0.2)`. -/
def temp_total (data : LeverageData) (now_ts : ℤ) : ℚ :=
  min (((temp_cleaned data now_ts).map (fun p => p.2.level)).sum) (2/10)

/-- The `bonuses` dict, built in source order; each factor is inserted only
when its value is strictly positive (the resource factor only when the
resources dict is non-empty, the mission factor only when the wallet has a
missions entry). -/
def levBonuses (st : ManagerState) (wallet : String) (now_ts : ℤ)
    (data : LeverageData) (ch : Character) : List (String × BonusEntry) :=
  (if territory_bonus st wallet > 0 then
    [("territory", ⟨territory_bonus st wallet,
      "Controlling " ++ toString (territory_count st wallet) ++ " territories",
      3/10, territory_bonus st wallet / (3/10)⟩)]
   else [])
  ++ (if ch.resources.isEmpty then []
      else if resource_bonus ch > 0 then
        [("resources", ⟨resource_bonus ch,
          "Diversified " ++ toString (unique_resources ch) ++ " resource types",
          2/10, resource_bonus ch / (2/10)⟩)]
      else [])
  ++ (if (lookupA st.missions wallet).isSome then
        if mission_bonus ((lookupA st.missions wallet).getD []) > 0 then
          [("missions", ⟨mission_bonus ((lookupA st.missions wallet).getD []),
            toString (completed_missions ((lookupA st.missions wallet).getD []))
              ++ " completed, "
              ++ toString (active_missions ((lookupA st.missions wallet).getD []))
              ++ " active missions",
            25/100, mission_bonus ((lookupA st.missions wallet).getD []) / (25/100)⟩)]
        else []
      else [])
  ++ (if level_bonus ch > 0 then
        [("level", ⟨level_bonus ch,
          "Level " ++ toString ch.level ++ " progression",
          25/100, level_bonus ch / (25/100)⟩)]
      else [])
  ++ (if achievement_bonus st wallet > 0 then
        [("achievements", ⟨achievement_bonus st wallet,
          toString (achievement_count st wallet) ++ " achievements unlocked",
          2/10, achievement_bonus st wallet / (2/10)⟩)]
      else [])
  ++ (if research_total data > 0 then
        [("research", ⟨research_total data, "Technology advancements",
          3/10, research_total data / (3/10)⟩)]
      else [])
  ++ (if temp_total data now_ts > 0 then
        [("temp_buffs", ⟨temp_total data now_ts, "Recent research deployments",
          2/10, temp_total data now_ts / (2/10)⟩)]
      else [])

/-- The in-place writes the call performs on `self.leverage_data[wallet]`:
`territory_bonus` always, `resource_bonus` only when the resources dict is
non-empty, `mission_bonus` only when the wallet has missions, `level_bonus`
and `achievement_bonus` always, and `temp_buffs` replaced by the pruned
dict. -/
def levDataAfter (st : ManagerState) (wallet : String) (now_ts : ℤ)
    (data : LeverageData) (ch : Character) : LeverageData :=
  let d1 := { data with territory_bonus := some (territory_bonus st wallet) }
  let d2 := if ch.resources.isEmpty then d1
    else { d1 with resource_bonus := some (resource_bonus ch) }
  let d3 := if (lookupA st.missions wallet).isSome then
    { d2 with mission_bonus := some (mission_bonus ((lookupA st.missions wallet).getD [])) }
    else d2
  let d4 := { d3 with level_bonus := some (level_bonus ch) }
  let d5 := { d4 with achievement_bonus := some (achievement_bonus st wallet) }
  { d5 with temp_buffs := some (temp_cleaned data now_ts) }

/-- The success path of `calculate_leverage_multiplier`: the total is
`base_rate + sum of bonus values` clamped into `[1, 2]`, and the wallet's
leverage data is mutated in place. -/
def levCore (st : ManagerState) (wallet : String) (now_ts : ℤ)
    (data : LeverageData) (ch : Character) : LevResult × ManagerState :=
  let base_rate : ℚ := 1
  let bonuses := levBonuses st wallet now_ts data ch
  let total_multiplier := base_rate + (bonuses.map (fun p => p.2.value)).sum
  let scaled_multiplier := min (max total_multiplier 1) 2
  let efficiency := (scaled_multiplier - 1) / (2 - 1)
  (LevResult.record ⟨scaled_multiplier, bonuses,
    some ⟨base_rate, efficiency, 2 - scaled_multiplier, temp_cleaned data now_ts⟩⟩,
   { st with leverage_data :=
      updateA st.leverage_data wallet (levDataAfter st wallet now_ts data ch) })

/-- `ConnectionManager.calculate_leverage_multiplier(wallet)`.

The Python method reads `self.leverage_data[wallet]` (a `KeyError` for an
absent wallet lands in the `except` clause, which returns the bare number
`1.0`), returns the neutral record when the character is missing, and
otherwise runs the success path `levCore`, which builds the capped bonuses
in source order and mutates `self.leverage_data[wallet]` in place (the
`*_bonus` fields and the pruned `temp_buffs`).  The returned pair is
(result, state after mutation). -/
def calculate_leverage_multiplier (st : ManagerState) (wallet : String) (now_ts : ℤ) :
    LevResult × ManagerState :=
  match lookupA st.leverage_data wallet with
  | none => (LevResult.numeric 1, st)
  | some data =>
    match lookupA st.characters wallet with
    | none => (LevResult.record ⟨1, [], none⟩, st)
    | some character => levCore st wallet now_ts data character

/-- The terminal outcome computed by the tier cascade of `_simulate_battle`
(`power_ratio >= 2.0 / >= 1.5 / >= 1.0 / else`). -/
structure BattleOutcome where
  success : Bool
  attackerSurvivors : ℕ
  defenderSurvivors : ℕ
deriving DecidableEq, Repr

/-- The power ratio of `_simulate_battle`:
`effective_attack_power / max(1, effective_defense_power)` where
`effective_attack_power = attacker_count * a_total`. -/
def power_ratio (attackerCount defenderCount : ℕ) (mult : ℚ) : ℚ :=
  ((attackerCount : ℚ) * mult) / (max 1 (defenderCount : ℚ))

/-- The outcome cascade of `_simulate_battle`.  `roll` is the value drawn by
`random.random()` in the tier that consults it (`success = roll < winProb`);
the `>= 2.0` tier never consults it.  Survivor fractions `int(count * 0.7)`
etc. are modelled exactly as `(7 * count) / 10` in truncating natural
division. -/
def resolveBattle (attackerCount defenderCount : ℕ) (mult roll : ℚ) : BattleOutcome :=
  let ratio := power_ratio attackerCount defenderCount mult
  if ratio ≥ 2 then
    ⟨true, max 1 ((7 * attackerCount) / 10), 0⟩
  else if ratio ≥ 3/2 then
    if roll < 85/100 then ⟨true, max 1 ((5 * attackerCount) / 10), 0⟩
    else ⟨false, max 0 ((2 * attackerCount) / 10), max 1 ((6 * defenderCount) / 10)⟩
  else if ratio ≥ 1 then
    if roll < 45/100 then ⟨true, max 1 ((3 * attackerCount) / 10), 0⟩
    else ⟨false, max 0 ((1 * attackerCount) / 10), max 1 ((4 * defenderCount) / 10)⟩
  else
    if roll < 15/100 then ⟨true, max 1 ((2 * attackerCount) / 10), 0⟩
    else ⟨false, 0, max 1 ((8 * defenderCount) / 10)⟩

/-- `duration = min(5, max(2, int(10 * (1 / max(0.1, power_ratio)))))` from
`_simulate_battle`; the number of half-second update ticks emitted. -/
def battleDuration (ratio : ℚ) : ℤ :=
  min 5 (max 2 ⌊(10 : ℚ) * (1 / max (1/10) ratio)⌋)

/-- The post-resolution world mutation of `_simulate_battle`: given the
outcome, the attacker wallet and the target's prior `controlledBy`/`defense`,
returns the new `(controlledBy, defense)` pair.  On success
`defense = max(1, int(attacker_survivors / 20))`; on failure
`defense = max(1, defense - 1)` and the owner is untouched. -/
def applyBattleResult (success : Bool) (attackerSurvivors : ℕ) (attacker : String)
    (owner : Option String) (defense : ℤ) : Option String × ℤ :=
  if success then (some attacker, max 1 ((attackerSurvivors / 20 : ℕ) : ℤ))
  else (owner, max 1 (defense - 1))

/-! ### Battle coordination (`attack_planet` / `active_battles`)

`attack_planet` rejects an attack when `self.active_battles` holds an
unfinished task for the target and otherwise creates the battle task and
stores it — with no `await` between the membership check and the dict
insertion, so the check-and-insert pair is a single atomic step of the
cooperative scheduler and is modelled below as one transition.  A battle
task resolves its outcome and, in its `finally` clause, deletes its own
entry from `active_battles` just before the task completes (so an entry
present in the dict always belongs to a task that is not yet `done()`). -/

/-- Lifecycle of one battle task. -/
inductive BattleState where
  | Running
  | Resolved
deriving DecidableEq, Repr

/-- One battle ever created: its task id, target planet and lifecycle state;
`done` is `task.done()` (set after the `finally` clause has removed the
battle from the active set). -/
structure Battle where
  id : ℕ
  target : String
  state : BattleState
  done : Bool
deriving DecidableEq, Repr

/-- The coordinator state: every battle ever created plus the
`active_battles` dict keyed by target id. -/
structure CoordState where
  battles : List Battle
  active_battles : List (String × ℕ)
  nextId : ℕ
deriving DecidableEq, Repr

/-- `self.active_battles[target_id].done()`: whether the task holding the
given id has completed (absent ids count as not done, which only makes the
coordinator more conservative). -/
def taskDone (s : CoordState) (bid : ℕ) : Bool :=
  match s.battles.find? (fun b => b.id = bid) with
  | some b => b.done
  | none => false

/-- Events driving the coordinator: an `attack_planet` command for a target,
the resolution of a battle task's outcome, and the task's `finally` cleanup
(removal from `active_battles` immediately followed by task completion). -/
inductive CoordEvent where
  | attack (target : String)
  | resolve (bid : ℕ)
  | cleanup (bid : ℕ)
deriving DecidableEq, Repr

/-- The coordinator's reply to an `attack` event. -/
inductive CoordReply where
  | accepted
  | rejectedBusy
  | none
deriving DecidableEq, Repr

/-- One atomic step of the coordinator.

`attack t` embeds lines 539-544 of `attack_planet`: if
`target_id in self.active_battles and not self.active_battles[target_id].done()`
the command is answered with an error and no battle is created; otherwise a
fresh battle task is created and stored under the target key without an
intervening suspension point.
`resolve bid` marks a running battle's outcome as computed;
`cleanup bid` is the `finally` clause (`del self.active_battles[target_id]`,
reachable only after the outcome is settled and while the dict still maps
the target to this very task) after which the task is `done()`. -/
def coordStep (s : CoordState) : CoordEvent → CoordState × CoordReply
  | .attack t =>
    match lookupA s.active_battles t with
    | some bid =>
      if taskDone s bid then
        ({ battles := ⟨s.nextId, t, BattleState.Running, false⟩ :: s.battles,
           active_battles := updateA s.active_battles t s.nextId,
           nextId := s.nextId + 1 }, CoordReply.accepted)
      else (s, CoordReply.rejectedBusy)
    | none =>
      ({ battles := ⟨s.nextId, t, BattleState.Running, false⟩ :: s.battles,
         active_battles := updateA s.active_battles t s.nextId,
         nextId := s.nextId + 1 }, CoordReply.accepted)
  | .resolve bid =>
    ({ s with battles := s.battles.map (fun b =>
        if b.id = bid ∧ b.state = BattleState.Running
        then { b with state := BattleState.Resolved } else b) }, CoordReply.none)
  | .cleanup bid =>
    match s.battles.find? (fun b => b.id = bid) with
    | some b =>
      if b.state = BattleState.Resolved ∧ b.done = false
          ∧ lookupA s.active_battles b.target = some bid then
        ({ s with
           battles := s.battles.map (fun b' =>
             if b'.id = bid then { b' with done := true } else b'),
           active_battles := s.active_battles.filter (fun p => p.1 ≠ b.target) },
         CoordReply.none)
      else (s, CoordReply.none)
    | none => (s, CoordReply.none)

/-- The coordinator starts with no battles (`self.active_battles = {}`). -/
def coordInit : CoordState := ⟨[], [], 0⟩

/-- Running a sequence of events from a state. -/
def coordRun (s : CoordState) : List CoordEvent → CoordState
  | [] => s
  | e :: es => coordRun (coordStep s e).1 es

/-- The number of non-Resolved battles for a target. -/
def runningCount (s : CoordState) (t : String) : ℕ :=
  (s.battles.filter (fun b => b.target = t ∧ b.state = BattleState.Running)).length

/-! ### State broadcasting (`send_game_state`) -/

/-- The `game_state_update` payload assembled by `send_game_state`. -/
structure GameMsg where
  character : Character
  territories : List Territory
  missions : List Mission
  leverageMultiplier : LevResult
deriving DecidableEq, Repr

/-- `ConnectionManager.send_game_state(websocket, wallet)`.

`last_send` models `self.last_game_state_send`, `throttle` models
`self.game_state_throttle_seconds`, `connEntry` the truthiness of
`self.active_connections.get(websocket)` and `isConnected` its
`"is_connected"` flag.  Returns the manager state after the call (the
embedded scoring call mutates `leverage_data`), the updated send-time map
and the delivered message, if any.  A throttled call logs and returns
without touching anything; `send_game_state_unthrottled` is the body after
the initial rate-limit check. -/
def send_game_state_unthrottled (st : ManagerState) (last_send : List (String × ℚ))
    (connEntry isConnected : Bool) (wallet : String) (now : ℚ) (now_ts : ℤ) :
    ManagerState × List (String × ℚ) × Option GameMsg :=
  if !connEntry then (st, last_send, none)
  else
    match lookupA st.characters wallet with
    | none => (st, last_send, none)
    | some character =>
      let levPair := calculate_leverage_multiplier st wallet now_ts
      let msg : GameMsg :=
        ⟨character,
         st.territories.filter (fun t => t.controlledBy = some wallet),
         (lookupA st.missions wallet).getD [],
         levPair.1⟩
      if connEntry && isConnected then
        (levPair.2, updateA last_send wallet now, some msg)
      else (levPair.2, last_send, none)

def send_game_state (st : ManagerState) (last_send : List (String × ℚ)) (throttle : ℚ)
    (connEntry isConnected : Bool) (wallet : String) (now : ℚ) (now_ts : ℤ) :
    ManagerState × List (String × ℚ) × Option GameMsg :=
  match lookupA last_send wallet with
  | some t =>
    if now - t < throttle then (st, last_send, none)
    else send_game_state_unthrottled st last_send connEntry isConnected wallet now now_ts
  | none => send_game_state_unthrottled st last_send connEntry isConnected wallet now now_ts

/-! ### Session teardown (`disconnect`) -/

/-- The per-connection info dict stored in `self.active_connections`. -/
structure ConnInfo where
  client_id : String
  is_connected : Bool
  keep_alive_task : Option ℕ
  last_ping : ℚ
  last_pong : ℚ
deriving DecidableEq, Repr

/-- The registry slice `disconnect` touches: the live-connection dict keyed
by websocket handle (modelled as `ℕ`), the connection counter, the set of
cancelled keepalive tasks and the set of closed transports. -/
structure Registry where
  active_connections : List (ℕ × ConnInfo)
  connection_count : ℤ
  cancelled_tasks : List ℕ
  closed_sockets : List ℕ
deriving DecidableEq, Repr

/-- Association lookup keyed by `ℕ` (websocket handles). -/
def lookupW {α : Type} (l : List (ℕ × α)) (k : ℕ) : Option α :=
  match l with
  | [] => none
  | (k', v) :: t => if k' = k then some v else lookupW t k

/-- `ConnectionManager.disconnect(websocket)`: when the websocket is in the
registry, cancel its keepalive task, mark it disconnected, decrement the
counter (floored at 0), close the transport and delete the registry entry;
when it is not, the guard makes the whole call a no-op. -/
def disconnect (r : Registry) (ws : ℕ) : Registry :=
  match lookupW r.active_connections ws with
  | none => r
  | some info =>
    { active_connections := r.active_connections.filter (fun p => p.1 ≠ ws),
      connection_count := max 0 (r.connection_count - 1),
      cancelled_tasks :=
        match info.keep_alive_task with
        | some t => t :: r.cancelled_tasks
        | none => r.cancelled_tasks,
      closed_sockets := ws :: r.closed_sockets }

/-! ### Helper lemmas -/

theorem lookupA_updateA_ne {α : Type} (l : List (String × α)) (k k' : String) (v : α)
    (h : k' ≠ k) : lookupA (updateA l k v) k' = lookupA l k' := by
  induction l with
  | nil =>
    simp only [updateA, lookupA]
    rw [if_neg (fun hk => h hk.symm)]
  | cons p t ih =>
    by_cases hk : p.1 = k
    · simp only [updateA, if_pos hk, lookupA]
      rw [if_neg (fun hk' => h hk'.symm), if_neg (by rw [hk]; exact fun hk' => h hk'.symm)]
    · simp only [updateA, if_neg hk, lookupA]
      by_cases hk' : p.1 = k'
      · rw [if_pos hk', if_pos hk']
      · rw [if_neg hk', if_neg hk', ih]

theorem resolveBattle_success_or_defenders (a d : ℕ) (m roll : ℚ) :
    (resolveBattle a d m roll).success = false ∨
    (resolveBattle a d m roll).defenderSurvivors = 0 := by
  unfold resolveBattle
  by_cases h2 : 2 ≤ power_ratio a d m
  · simp [h2]
  by_cases h15 : 3/2 ≤ power_ratio a d m
  · by_cases hr : roll < 85/100 <;> simp [h2, h15, hr]
  by_cases h1 : 1 ≤ power_ratio a d m
  · by_cases hr : roll < 45/100 <;> simp [h2, h15, h1, hr]
  · by_cases hr : roll < 15/100 <;> simp [h2, h15, h1, hr]

/-! ### Claim theorems about the combat resolver -/

/-- Claim C5, counterexample: with `attackerCount = 1`, `defenderCount = 1`
and `multiplier = 2` the ratio is exactly `2.0`, the attack deterministically
succeeds, but the attacker survivor count is `max(1, int(1 * 0.7)) = 1`,
which is not 70% of the attacker count (`0.7`, i.e. `0` as an integer). -/
theorem c5_counterexample :
    2 ≤ power_ratio 1 1 2 ∧
    resolveBattle 1 1 2 0 = ⟨true, 1, 0⟩ ∧
    ((resolveBattle 1 1 2 0).attackerSurvivors : ℚ) ≠ (7/10) * 1 ∧
    (resolveBattle 1 1 2 0).attackerSurvivors ≠ (7 * 1) / 10 := by
  refine ⟨by norm_num [power_ratio], by norm_num [resolveBattle, power_ratio], ?_, ?_⟩ <;>
    norm_num [resolveBattle, power_ratio]

/-- Claim C5 as amended: whenever
`ratio = attackerCount * multiplier / max(1, defenderCount) ≥ 2.0`, the
resolution always succeeds with no randomness involved, the defender
survivor count is 0, and the attacker survivor count is
`max(1, ⌊0.7 * attackerCount⌋)`. -/
theorem c5_amended (a d : ℕ) (m roll : ℚ) (h : 2 ≤ power_ratio a d m) :
    resolveBattle a d m roll = ⟨true, max 1 ((7 * a) / 10), 0⟩ := by
  unfold resolveBattle
  rw [if_pos h]

/-- Witness for `c5_amended` at the spec's own scenario
(`attackerCount = 100`, `defenderCount = 40`, `multiplier = 1.5`). -/
theorem c5_amended_witness :
    2 ≤ power_ratio 100 40 (3/2) ∧
    resolveBattle 100 40 (3/2) 0 = ⟨true, max 1 ((7 * 100) / 10), 0⟩ :=
  ⟨by norm_num [power_ratio], c5_amended 100 40 (3/2) 0 (by norm_num [power_ratio])⟩

/-- Claim C6, counterexample: at `attackerCount = 100`, `multiplier = 1.5`,
`defenderCount = 40` (defense 1) the ratio is `3.75` and the outcome fields
match the claim, but the tick count computed by the code is
`min(5, max(2, int(10 * (1 / 3.75)))) = 2`, not the claimed
`clamp(round(10 / 3.75), 2, 5) = 3`: the code truncates `2.666...` to `2`
instead of rounding to `3`. -/
theorem c6_counterexample :
    power_ratio 100 40 (3/2) = 15/4 ∧
    resolveBattle 100 40 (3/2) 0 = ⟨true, 70, 0⟩ ∧
    battleDuration (power_ratio 100 40 (3/2)) = 2 ∧
    battleDuration (power_ratio 100 40 (3/2)) ≠ 3 := by
  refine ⟨by norm_num [power_ratio], by norm_num [resolveBattle, power_ratio], ?_, ?_⟩ <;>
    norm_num [battleDuration, power_ratio]

/-- Claim C6 as amended: for `attackerCount = 100`, `multiplier = 1.5`,
target defense 1 (so `defenderCount = 40` and `ratio = 3.75`), resolution
yields success, 70 attacker survivors, 0 defender survivors, and a tick
count of `clamp(⌊10 / 3.75⌋, 2, 5) = 2`, per the general formula
`tickCount = clamp(⌊10 / max(0.1, ratio)⌋, 2, 5)` (the code truncates the
quotient; it does not round). -/
theorem c6_amended (roll : ℚ) :
    power_ratio 100 40 (3/2) = 15/4 ∧
    resolveBattle 100 40 (3/2) roll = ⟨true, 70, 0⟩ ∧
    battleDuration (15/4) = min 5 (max 2 ⌊(10 : ℚ) / (15/4)⌋) ∧
    battleDuration (power_ratio 100 40 (3/2)) = 2 := by
  refine ⟨by norm_num [power_ratio], ?_, ?_, ?_⟩
  · have h : (2:ℚ) ≤ power_ratio 100 40 (3/2) := by norm_num [power_ratio]
    rw [resolveBattle, if_pos h]
    norm_num
  · norm_num [battleDuration]
  · norm_num [battleDuration, power_ratio]

/-- Claim C4, counterexample: a planet generated with defense 0
(`random.randint(0, 4)` can yield 0) whose defense holds: the code sets the
new defense to `max(1, 0 - 1) = 1`, an increase, so the defense does not
"decrease by exactly 1".  Here `attackerCount = 1`, `defenderCount = 0`,
`multiplier = 1`, `roll = 1` puts the battle in the `>= 1.0` tier with a
failed attack. -/
theorem c4_counterexample :
    (resolveBattle 1 0 1 1).success = false ∧
    applyBattleResult (resolveBattle 1 0 1 1).success
      (resolveBattle 1 0 1 1).attackerSurvivors "att" (some "def") 0
        = (some "def", 1) ∧
    ((1 : ℤ) ≠ 0 - 1) ∧ ((0 : ℤ) < 1) := by
  refine ⟨?_, ?_, by norm_num, by norm_num⟩ <;>
    norm_num [resolveBattle, power_ratio, applyBattleResult]

/-- Claim C4 as amended: on success the target's owner becomes the attacker,
defender survivors are 0 and the defense is recomputed as
`max(1, ⌊attackerSurvivors / 20⌋)`; on failure the owner is unchanged and
the defense becomes `max(1, defense - 1)` — a decrease by exactly 1 whenever
the prior defense is at least 2, and never below 1; in all cases the
resulting defense is at least 1, hence never negative. -/
theorem c4_amended (a d : ℕ) (m roll : ℚ) (attacker : String)
    (owner : Option String) (defense : ℤ) :
    ((resolveBattle a d m roll).success = true →
      applyBattleResult (resolveBattle a d m roll).success
          (resolveBattle a d m roll).attackerSurvivors attacker owner defense
        = (some attacker,
           max 1 (((resolveBattle a d m roll).attackerSurvivors / 20 : ℕ) : ℤ)) ∧
      (resolveBattle a d m roll).defenderSurvivors = 0) ∧
    ((resolveBattle a d m roll).success = false →
      (applyBattleResult (resolveBattle a d m roll).success
          (resolveBattle a d m roll).attackerSurvivors attacker owner defense).1 = owner ∧
      (applyBattleResult (resolveBattle a d m roll).success
          (resolveBattle a d m roll).attackerSurvivors attacker owner defense).2
        = max 1 (defense - 1) ∧
      (2 ≤ defense →
        (applyBattleResult (resolveBattle a d m roll).success
            (resolveBattle a d m roll).attackerSurvivors attacker owner defense).2
          = defense - 1)) ∧
    1 ≤ (applyBattleResult (resolveBattle a d m roll).success
          (resolveBattle a d m roll).attackerSurvivors attacker owner defense).2 := by
  refine ⟨fun hs => ?_, fun hf => ?_, ?_⟩
  · refine ⟨by rw [applyBattleResult, if_pos hs], ?_⟩
    rcases resolveBattle_success_or_defenders a d m roll with h | h
    · rw [hs] at h; simp at h
    · exact h
  · rw [applyBattleResult, if_neg (by simp [hf])]
    refine ⟨rfl, rfl, fun h2 => ?_⟩
    simp only [max_eq_right (by omega : (1:ℤ) ≤ defense - 1)]
  · cases hb : (resolveBattle a d m roll).success with
    | false => simp [applyBattleResult, le_max_left]
    | true => simp [applyBattleResult, le_max_left]

/-- Witness for `c4_amended`: the spec's overwhelming-attack scenario applied
to a defense-1 target owned by another player. -/
theorem c4_amended_witness :
    ((resolveBattle 100 40 (3/2) 0).success = true →
      applyBattleResult (resolveBattle 100 40 (3/2) 0).success
          (resolveBattle 100 40 (3/2) 0).attackerSurvivors "att" (some "def") 1
        = (some "att",
           max 1 (((resolveBattle 100 40 (3/2) 0).attackerSurvivors / 20 : ℕ) : ℤ)) ∧
      (resolveBattle 100 40 (3/2) 0).defenderSurvivors = 0) ∧
    ((resolveBattle 100 40 (3/2) 0).success = false →
      (applyBattleResult (resolveBattle 100 40 (3/2) 0).success
          (resolveBattle 100 40 (3/2) 0).attackerSurvivors "att" (some "def") 1).1
        = some "def" ∧
      (applyBattleResult (resolveBattle 100 40 (3/2) 0).success
          (resolveBattle 100 40 (3/2) 0).attackerSurvivors "att" (some "def") 1).2
        = max 1 ((1 : ℤ) - 1) ∧
      (2 ≤ (1 : ℤ) →
        (applyBattleResult (resolveBattle 100 40 (3/2) 0).success
            (resolveBattle 100 40 (3/2) 0).attackerSurvivors "att" (some "def") 1).2
          = (1 : ℤ) - 1)) ∧
    1 ≤ (applyBattleResult (resolveBattle 100 40 (3/2) 0).success
          (resolveBattle 100 40 (3/2) 0).attackerSurvivors "att" (some "def") 1).2 :=
  c4_amended 100 40 (3/2) 0 "att" (some "def") 1

/-- Claim C10: the winning side's survivor count is floored at 1 — on
success the attacker keeps at least one unit and on failure the defender
keeps at least one unit, even when the corresponding starting count is 0
(second conjunct: a defender that began with 0 units still "survives" with
1 unit after a failed attack, exceeding the documented 80% of 0). -/
theorem c10_winning_side_floor :
    (∀ (a d : ℕ) (m roll : ℚ),
      1 ≤ (if (resolveBattle a d m roll).success
           then (resolveBattle a d m roll).attackerSurvivors
           else (resolveBattle a d m roll).defenderSurvivors)) ∧
    (resolveBattle 1 0 1 1).success = false ∧
    (resolveBattle 1 0 1 1).defenderSurvivors = 1 ∧
    (8 * 0) / 10 < (resolveBattle 1 0 1 1).defenderSurvivors := by
  refine ⟨fun a d m roll => ?_, ?_, ?_, ?_⟩
  · unfold resolveBattle
    by_cases h2 : 2 ≤ power_ratio a d m
    · simp [h2, le_max_left]
    by_cases h15 : 3/2 ≤ power_ratio a d m
    · by_cases hr : roll < 85/100 <;> simp [h2, h15, hr, le_max_left]
    by_cases h1 : 1 ≤ power_ratio a d m
    · by_cases hr : roll < 45/100 <;> simp [h2, h15, h1, hr, le_max_left]
    · by_cases hr : roll < 15/100 <;> simp [h2, h15, h1, hr, le_max_left]
  all_goals norm_num [resolveBattle, power_ratio]

/-! ### The per-target exclusivity invariant of the battle coordinator -/

theorem lookupA_filter_ne {α : Type} (l : List (String × α)) (k k' : String)
    (h : k' ≠ k) :
    lookupA (l.filter (fun p => p.1 ≠ k)) k' = lookupA l k' := by
  induction l with
  | nil => simp [lookupA]
  | cons p t ih =>
    by_cases hp : p.1 = k
    · rw [List.filter_cons_of_neg (by simp [hp])]
      rw [ih]
      have : p.1 ≠ k' := by rw [hp]; exact fun hh => h hh.symm
      simp [lookupA, this]
    · rw [List.filter_cons_of_pos (by simp [hp])]
      by_cases hk' : p.1 = k'
      · simp [lookupA, hk']
      · simp only [lookupA, if_neg hk']
        exact ih

theorem findBattle_eq (l : List Battle) (bid : ℕ) (b : Battle)
    (hnd : (l.map Battle.id).Nodup) (hb : b ∈ l) (hid : b.id = bid) :
    l.find? (fun x => x.id = bid) = some b := by
  induction l with
  | nil => cases hb
  | cons a t ih =>
    rw [List.map_cons, List.nodup_cons] at hnd
    rcases List.mem_cons.mp hb with rfl | hbt
    · exact List.find?_cons_of_pos t (by simp [hid])
    · by_cases ha : a.id = bid
      · exact absurd (by rw [ha, ← hid]; exact List.mem_map_of_mem Battle.id hbt) hnd.1
      · rw [List.find?_cons_of_neg t (by simp [ha])]
        exact ih hnd.2 hbt

/-- The coordinator invariant: every non-Resolved battle is the value of the
`active_battles` dict at its target and its task is not `done()`; battle ids
never repeat; created ids stay below the id counter. -/
def coordInv (s : CoordState) : Prop :=
  (∀ b ∈ s.battles, b.state = BattleState.Running →
      lookupA s.active_battles b.target = some b.id ∧ b.done = false)
  ∧ (s.battles.map Battle.id).Nodup
  ∧ ∀ b ∈ s.battles, b.id < s.nextId

theorem coordInv_init : coordInv coordInit := by
  refine ⟨?_, ?_, ?_⟩ <;> simp [coordInit]

theorem coordInv_accept (s : CoordState) (t : String)
    (hA : ∀ b ∈ s.battles, b.state = BattleState.Running →
      lookupA s.active_battles b.target = some b.id ∧ b.done = false)
    (hN : (s.battles.map Battle.id).Nodup)
    (hF : ∀ b ∈ s.battles, b.id < s.nextId)
    (hnone : ∀ b ∈ s.battles, b.target = t → b.state ≠ BattleState.Running) :
    coordInv ⟨⟨s.nextId, t, BattleState.Running, false⟩ :: s.battles,
      updateA s.active_battles t s.nextId, s.nextId + 1⟩ := by
  refine ⟨?_, ?_, ?_⟩
  · intro b hb hrun
    rcases List.mem_cons.mp hb with rfl | hbt
    · exact ⟨lookupA_updateA_self s.active_battles t s.nextId, rfl⟩
    · have hne : b.target ≠ t := fun he => hnone b hbt he hrun
      rw [lookupA_updateA_ne s.active_battles t b.target s.nextId hne]
      exact hA b hbt hrun
  · rw [List.map_cons, List.nodup_cons]
    refine ⟨fun hmem => ?_, hN⟩
    rcases List.mem_map.mp hmem with ⟨b, hb, hbid⟩
    exact absurd hbid (Nat.ne_of_lt (hF b hb))
  · intro b hb
    rcases List.mem_cons.mp hb with rfl | hbt
    · exact Nat.lt_succ_self _
    · exact Nat.lt_succ_of_lt (hF b hbt)

theorem coordInv_step (s : CoordState) (e : CoordEvent) (h : coordInv s) :
    coordInv (coordStep s e).1 := by
  obtain ⟨hA, hN, hF⟩ := h
  cases e with
  | attack t =>
    rcases hl : lookupA s.active_battles t with _ | bid
    · simp only [coordStep, hl]
      refine coordInv_accept s t hA hN hF (fun b hb ht hrun => ?_)
      have := (hA b hb hrun).1
      rw [ht, hl] at this
      cases this
    · simp only [coordStep, hl]
      by_cases hd : taskDone s bid = true
      · rw [if_pos hd]
        refine coordInv_accept s t hA hN hF (fun b hb ht hrun => ?_)
        have hlk := (hA b hb hrun).1
        rw [ht, hl] at hlk
        have hbid : b.id = bid := by cases hlk; rfl
        have : taskDone s bid = false := by
          rw [taskDone, findBattle_eq s.battles bid b hN hb hbid]
          exact (hA b hb hrun).2
        rw [this] at hd
        cases hd
      · rw [if_neg hd]
        exact ⟨hA, hN, hF⟩
  | resolve bid =>
    simp only [coordStep]
    refine ⟨?_, ?_, ?_⟩
    · intro b' hb' hrun
      rcases List.mem_map.mp hb' with ⟨b, hb, rfl⟩
      by_cases hc : b.id = bid ∧ b.state = BattleState.Running
      · rw [if_pos hc] at hrun ⊢
        cases hrun
      · rw [if_neg hc] at hrun ⊢
        exact hA b hb hrun
    · have hid : ∀ b ∈ s.battles, Battle.id
          (if b.id = bid ∧ b.state = BattleState.Running
           then { b with state := BattleState.Resolved } else b) = Battle.id b := by
        intro b _
        by_cases hc : b.id = bid ∧ b.state = BattleState.Running
        · rw [if_pos hc]
        · rw [if_neg hc]
      have hmm : List.map Battle.id (List.map
          (fun b => if b.id = bid ∧ b.state = BattleState.Running
            then { b with state := BattleState.Resolved } else b) s.battles)
          = List.map Battle.id s.battles := by
        rw [List.map_map]
        exact List.map_congr_left hid
      rw [hmm]
      exact hN
    · intro b' hb'
      rcases List.mem_map.mp hb' with ⟨b, hb, rfl⟩
      by_cases hc : b.id = bid ∧ b.state = BattleState.Running
      · rw [if_pos hc]
        exact hF b hb
      · rw [if_neg hc]
        exact hF b hb
  | cleanup bid =>
    rcases hf : s.battles.find? (fun b => b.id = bid) with _ | b0
    · simp only [coordStep, hf]
      exact ⟨hA, hN, hF⟩
    · simp only [coordStep, hf]
      by_cases hc : b0.state = BattleState.Resolved ∧ b0.done = false
          ∧ lookupA s.active_battles b0.target = some bid
      · rw [if_pos hc]
        have hb0mem : b0 ∈ s.battles := List.mem_of_find?_eq_some hf
        have hb0id : b0.id = bid := by
          have := List.find?_some hf
          simpa using this
        refine ⟨?_, ?_, ?_⟩
        · intro b' hb' hrun
          rcases List.mem_map.mp hb' with ⟨b, hb, rfl⟩
          by_cases hbi : b.id = bid
          · have : b = b0 :=
              List.inj_on_of_nodup_map hN hb hb0mem (by rw [hbi, hb0id])
            rw [if_pos hbi] at hrun
            subst this
            rw [hc.1] at hrun
            cases hrun
          · rw [if_neg hbi] at hrun ⊢
            have hold := hA b hb hrun
            have hne : b.target ≠ b0.target := by
              intro he
              have := hold.1
              rw [he, hc.2.2] at this
              exact hbi (by cases this; rfl)
            rw [lookupA_filter_ne s.active_battles b0.target b.target hne]
            exact hold
        · have hid : ∀ b ∈ s.battles, Battle.id
              (if b.id = bid then { b with done := true } else b) = Battle.id b := by
            intro b _
            by_cases hbi : b.id = bid
            · rw [if_pos hbi]
            · rw [if_neg hbi]
          have hmm : List.map Battle.id (List.map
              (fun b' => if b'.id = bid then { b' with done := true } else b') s.battles)
              = List.map Battle.id s.battles := by
            rw [List.map_map]
            exact List.map_congr_left hid
          rw [hmm]
          exact hN
        · intro b' hb'
          rcases List.mem_map.mp hb' with ⟨b, hb, rfl⟩
          by_cases hbi : b.id = bid
          · rw [if_pos hbi]
            exact hF b hb
          · rw [if_neg hbi]
            exact hF b hb
      · rw [if_neg hc]
        exact ⟨hA, hN, hF⟩

theorem coordInv_run (s : CoordState) (evs : List CoordEvent) (h : coordInv s) :
    coordInv (coordRun s evs) := by
  induction evs generalizing s with
  | nil => exact h
  | cons e es ih => exact ih _ (coordInv_step s e h)

theorem length_le_one_of_same_id (l : List Battle) (v : ℕ)
    (hnd : (l.map Battle.id).Nodup) (hall : ∀ b ∈ l, b.id = v) :
    l.length ≤ 1 := by
  cases l with
  | nil => simp
  | cons a t =>
    cases t with
    | nil => simp
    | cons c t2 =>
      exfalso
      rw [List.map_cons, List.nodup_cons] at hnd
      apply hnd.1
      rw [hall a (List.mem_cons_self a _), ← hall c (by simp)]
      exact List.mem_map_of_mem Battle.id (by simp)

theorem runningCount_le_one_of_inv (s : CoordState) (h : coordInv s) (t : String) :
    runningCount s t ≤ 1 := by
  obtain ⟨hA, hN, _⟩ := h
  unfold runningCount
  have hsub := List.filter_sublist
    (p := fun b => decide (b.target = t ∧ b.state = BattleState.Running)) s.battles
  have hnd' : ((s.battles.filter
      (fun b => decide (b.target = t ∧ b.state = BattleState.Running))).map
        Battle.id).Nodup :=
    (hsub.map Battle.id).nodup hN
  rcases hcase : lookupA s.active_battles t with _ | v
  · have hempty : s.battles.filter
        (fun b => decide (b.target = t ∧ b.state = BattleState.Running)) = [] := by
      refine List.eq_nil_iff_forall_not_mem.mpr (fun b hb => ?_)
      rcases List.mem_filter.mp hb with ⟨hmem, hcond⟩
      rw [decide_eq_true_eq] at hcond
      have := (hA b hmem hcond.2).1
      rw [hcond.1, hcase] at this
      cases this
    rw [hempty]
    simp
  · refine length_le_one_of_same_id _ v hnd' (fun b hb => ?_)
    rcases List.mem_filter.mp hb with ⟨hmem, hcond⟩
    rw [decide_eq_true_eq] at hcond
    have := (hA b hmem hcond.2).1
    rw [hcond.1, hcase] at this
    cases this
    rfl

/-- Claim C2: per-target battle exclusivity.  The check of `active_battles`
and the insertion of the new battle task in `attack_planet` contain no
`await`, so they form one atomic transition of the cooperative scheduler
(the single `coordStep` on `attack`); under that embedding, (1) along every
event sequence from the initial state, at most one non-Resolved battle
exists per target planet id, and (2) an `attack_planet` command issued while
the active-battle set holds an unfinished task for the same target is
answered with an error and leaves the coordinator state unchanged — no new
battle is started. -/
theorem c2_per_target_exclusivity :
    (∀ (evs : List CoordEvent) (t : String),
        runningCount (coordRun coordInit evs) t ≤ 1) ∧
    (∀ (s : CoordState) (t : String) (bid : ℕ),
        lookupA s.active_battles t = some bid → taskDone s bid = false →
        coordStep s (CoordEvent.attack t) = (s, CoordReply.rejectedBusy)) := by
  constructor
  · intro evs t
    exact runningCount_le_one_of_inv _ (coordInv_run coordInit evs coordInv_init) t
  · intro s t bid hl hd
    simp only [coordStep, hl]
    rw [if_neg (by rw [hd]; exact Bool.false_ne_true)]

/-- Witness for `c2_per_target_exclusivity`: a concrete double attack on the
same planet — the second command is rejected and the state is unchanged. -/
theorem c2_witness :
    runningCount (coordRun coordInit
      [CoordEvent.attack "p1", CoordEvent.attack "p1"]) "p1" ≤ 1 ∧
    coordStep (coordRun coordInit [CoordEvent.attack "p1"]) (CoordEvent.attack "p1")
      = (coordRun coordInit [CoordEvent.attack "p1"], CoordReply.rejectedBusy) :=
  ⟨c2_per_target_exclusivity.1 [CoordEvent.attack "p1", CoordEvent.attack "p1"] "p1",
   c2_per_target_exclusivity.2 (coordRun coordInit [CoordEvent.attack "p1"]) "p1" 0
     (by decide) (by decide)⟩

/-! ### Error-path shape of the scoring engine (claim C7) -/

/-- The `leverage_data` dict as `create_character` initialises it
(`multiplier 1.2`, no bonus keys, no research, no temp buffs). -/
def initialLeverageData : LeverageData :=
  ⟨6/5, none, none, none, none, none, none, none⟩

/-- Claim C7, observed code behaviour: for a wallet absent from
`leverage_data` the `KeyError` is caught and the function returns the bare
number `1.0` — a value of a different shape from the structured record of
the success path — while a wallet with leverage data but no character does
get the structured neutral record `{total: 1.0, bonuses: {}}`.  The first
conjunct is the divergence from the claim; the third shows the
neutral-record path the claim describes. -/
theorem c7_error_path_shape :
    calculate_leverage_multiplier ⟨[], [], [], [], []⟩ "w" 0
      = (LevResult.numeric 1, ⟨[], [], [], [], []⟩) ∧
    (∀ r : LevRecord, LevResult.numeric 1 ≠ LevResult.record r) ∧
    calculate_leverage_multiplier
        ⟨[], [], [], [("w", initialLeverageData)], []⟩ "w" 0
      = (LevResult.record ⟨1, [], none⟩,
         ⟨[], [], [], [("w", initialLeverageData)], []⟩) := by
  refine ⟨by simp [calculate_leverage_multiplier, lookupA], fun r h => ?_, ?_⟩
  · cases h
  · simp [calculate_leverage_multiplier, lookupA, initialLeverageData]

/-! ### Throttled state broadcasting (claim C8) -/

theorem send_unthrottled_delivered (st : ManagerState) (ls : List (String × ℚ))
    (ce ic : Bool) (w : String) (now : ℚ) (ts : ℤ)
    (st' : ManagerState) (ls' : List (String × ℚ)) (m : GameMsg)
    (h : send_game_state_unthrottled st ls ce ic w now ts = (st', ls', some m)) :
    ls' = updateA ls w now ∧
    ∃ ch, lookupA st.characters w = some ch ∧
      m = ⟨ch, st.territories.filter (fun x => x.controlledBy = some w),
           (lookupA st.missions w).getD [],
           (calculate_leverage_multiplier st w ts).1⟩ := by
  unfold send_game_state_unthrottled at h
  cases ce with
  | false => simp at h
  | true =>
    simp only [Bool.not_true] at h
    rw [if_neg (by simp)] at h
    rcases hch : lookupA st.characters w with _ | ch
    · simp only [hch] at h
      simp at h
    · simp only [hch] at h
      cases ic with
      | false => simp at h
      | true =>
        simp only [Bool.and_self, if_true] at h
        simp only [Prod.mk.injEq] at h
        exact ⟨h.2.1.symm, ch, rfl, (Option.some.inj h.2.2).symm⟩

/-- Claim C8: if a push to a player succeeds at time `t0` and a second push
for the same player arrives at `t1` with `t1 - t0` inside the throttle
window, the second push is dropped — it delivers nothing, is not queued
(the send-time map and manager state are returned unchanged) — so exactly
one `game_state_update` is delivered; and any delivered message carries
only the snapshot assembled from the state current at its own call. -/
theorem c8_throttle_window (st st1 : ManagerState) (ls ls1 : List (String × ℚ))
    (throttle : ℚ) (ce ic ce' ic' : Bool) (w : String) (t0 t1 : ℚ) (ts0 ts1 : ℤ)
    (m1 : GameMsg)
    (h1 : send_game_state st ls throttle ce ic w t0 ts0 = (st1, ls1, some m1))
    (h2 : t1 - t0 < throttle) :
    send_game_state st1 ls1 throttle ce' ic' w t1 ts1 = (st1, ls1, none) ∧
    ∃ ch, lookupA st.characters w = some ch ∧
      m1 = ⟨ch, st.territories.filter (fun x => x.controlledBy = some w),
            (lookupA st.missions w).getD [],
            (calculate_leverage_multiplier st w ts0).1⟩ := by
  have hun : ∃ st0' ls0',
      send_game_state_unthrottled st ls ce ic w t0 ts0 = (st0', ls0', some m1) ∧
      st0' = st1 ∧ ls0' = ls1 := by
    unfold send_game_state at h1
    rcases hlk : lookupA ls w with _ | t
    · simp only [hlk] at h1
      exact ⟨st1, ls1, h1, rfl, rfl⟩
    · simp only [hlk] at h1
      by_cases ht : t0 - t < throttle
      · rw [if_pos ht] at h1
        simp at h1
      · rw [if_neg ht] at h1
        exact ⟨st1, ls1, h1, rfl, rfl⟩
  obtain ⟨st0', ls0', hd, rfl, rfl⟩ := hun
  obtain ⟨hls, hshape⟩ := send_unthrottled_delivered st ls ce ic w t0 ts0 _ _ _ hd
  subst hls
  refine ⟨?_, hshape⟩
  unfold send_game_state
  simp only [lookupA_updateA_self]
  rw [if_pos h2]

/-- Witness for `c8_throttle_window`: a first push at `t = 0` to a freshly
created player delivers; a second push at `t = 1` (inside the 300-second
window) is dropped. -/
theorem c8_throttle_window_witness :
    send_game_state (calculate_leverage_multiplier
        ⟨[("w", ⟨"n", "f", 1, 0, []⟩)], [], [], [], []⟩ "w" 0).2
      (updateA [] "w" 0) 300 true true "w" 1 1
      = ((calculate_leverage_multiplier
          ⟨[("w", ⟨"n", "f", 1, 0, []⟩)], [], [], [], []⟩ "w" 0).2,
         updateA [] "w" 0, none) ∧
    ∃ ch, lookupA (⟨[("w", ⟨"n", "f", 1, 0, []⟩)], [], [], [], []⟩
        : ManagerState).characters "w" = some ch ∧
      (⟨⟨"n", "f", 1, 0, []⟩, [], [], LevResult.numeric 1⟩ : GameMsg)
        = ⟨ch, (⟨[("w", ⟨"n", "f", 1, 0, []⟩)], [], [], [], []⟩
              : ManagerState).territories.filter (fun x => x.controlledBy = some "w"),
           (lookupA (⟨[("w", ⟨"n", "f", 1, 0, []⟩)], [], [], [], []⟩
              : ManagerState).missions "w").getD [],
           (calculate_leverage_multiplier
              ⟨[("w", ⟨"n", "f", 1, 0, []⟩)], [], [], [], []⟩ "w" 0).1⟩ :=
  c8_throttle_window ⟨[("w", ⟨"n", "f", 1, 0, []⟩)], [], [], [], []⟩ _ [] _
    300 true true true true "w" 0 1 0 1 ⟨⟨"n", "f", 1, 0, []⟩, [], [], LevResult.numeric 1⟩
    (by simp [send_game_state, send_game_state_unthrottled, lookupA,
      calculate_leverage_multiplier, updateA])
    (by norm_num)

/-! ### Idempotent session teardown (claim C9) -/

theorem lookupW_filter_self {α : Type} (l : List (ℕ × α)) (k : ℕ) :
    lookupW (l.filter (fun p => p.1 ≠ k)) k = none := by
  induction l with
  | nil => simp [lookupW]
  | cons p t ih =>
    by_cases hp : p.1 = k
    · rw [List.filter_cons_of_neg (by simp [hp])]
      exact ih
    · rw [List.filter_cons_of_pos (by simp [hp])]
      simp only [lookupW, if_neg hp]
      exact ih

/-- Claim C9: `disconnect` is idempotent.  A second call on the same
websocket finds the registry entry gone and leaves the registry exactly as
the first call left it; the first call (when the session is registered)
removes the session from the registry, closes its transport, decrements the
connection count (floored at 0) and cancels the keepalive task when one
exists. -/
theorem c9_disconnect_idempotent :
    (∀ (r : Registry) (ws : ℕ),
        disconnect (disconnect r ws) ws = disconnect r ws) ∧
    (∀ (r : Registry) (ws : ℕ) (info : ConnInfo),
        lookupW r.active_connections ws = some info →
        lookupW (disconnect r ws).active_connections ws = none ∧
        ws ∈ (disconnect r ws).closed_sockets ∧
        (disconnect r ws).connection_count = max 0 (r.connection_count - 1) ∧
        ∀ tid, info.keep_alive_task = some tid →
          tid ∈ (disconnect r ws).cancelled_tasks) := by
  have hnoop : ∀ (r : Registry) (ws : ℕ),
      lookupW r.active_connections ws = none → disconnect r ws = r := by
    intro r ws h
    simp only [disconnect, h]
  constructor
  · intro r ws
    refine hnoop _ _ ?_
    rcases hl : lookupW r.active_connections ws with _ | info
    · rw [hnoop r ws hl]
      exact hl
    · simp only [disconnect, hl]
      exact lookupW_filter_self _ _
  · intro r ws info hl
    refine ⟨?_, ?_, ?_, fun tid htid => ?_⟩
    · simp only [disconnect, hl]
      exact lookupW_filter_self _ _
    · simp only [disconnect, hl]
      exact List.mem_cons_self _ _
    · simp [disconnect, hl]
    · simp only [disconnect, hl, htid]
      exact List.mem_cons_self _ _

/-- Witness for `c9_disconnect_idempotent`: one registered session with a
keepalive task; both calls agree and the first call's effects are visible. -/
theorem c9_disconnect_witness :
    disconnect (disconnect ⟨[(1, ⟨"w", true, some 7, 0, 0⟩)], 1, [], []⟩ 1) 1
      = disconnect ⟨[(1, ⟨"w", true, some 7, 0, 0⟩)], 1, [], []⟩ 1 ∧
    lookupW (disconnect ⟨[(1, ⟨"w", true, some 7, 0, 0⟩)], 1, [], []⟩ 1).active_connections 1
      = none ∧
    1 ∈ (disconnect ⟨[(1, ⟨"w", true, some 7, 0, 0⟩)], 1, [], []⟩ 1).closed_sockets ∧
    (disconnect ⟨[(1, ⟨"w", true, some 7, 0, 0⟩)], 1, [], []⟩ 1).connection_count
      = max 0 ((1 : ℤ) - 1) ∧
    (∀ tid, (⟨"w", true, some 7, 0, 0⟩ : ConnInfo).keep_alive_task = some tid →
      tid ∈ (disconnect ⟨[(1, ⟨"w", true, some 7, 0, 0⟩)], 1, [], []⟩ 1).cancelled_tasks) :=
  ⟨c9_disconnect_idempotent.1 ⟨[(1, ⟨"w", true, some 7, 0, 0⟩)], 1, [], []⟩ 1,
   (c9_disconnect_idempotent.2 ⟨[(1, ⟨"w", true, some 7, 0, 0⟩)], 1, [], []⟩ 1
     ⟨"w", true, some 7, 0, 0⟩ (by decide)).1,
   (c9_disconnect_idempotent.2 ⟨[(1, ⟨"w", true, some 7, 0, 0⟩)], 1, [], []⟩ 1
     ⟨"w", true, some 7, 0, 0⟩ (by decide)).2.1,
   (c9_disconnect_idempotent.2 ⟨[(1, ⟨"w", true, some 7, 0, 0⟩)], 1, [], []⟩ 1
     ⟨"w", true, some 7, 0, 0⟩ (by decide)).2.2.1,
   (c9_disconnect_idempotent.2 ⟨[(1, ⟨"w", true, some 7, 0, 0⟩)], 1, [], []⟩ 1
     ⟨"w", true, some 7, 0, 0⟩ (by decide)).2.2.2⟩

/-! ### The bounded-clamp law of the scoring engine (claim C1) -/

/-- Modelled from the spec wording (section 4.2, items 1-7): the sum of the
seven independently capped bonus contributions of a leverage profile —
territory `min(owned * 0.05, 0.30)`, resource diversity
`min(distinct * 0.05, 0.20)`, missions `min(completed * 0.025 +
active * 0.01, 0.25)`, level `min((level - 1) * 0.05, 0.25)`, achievements
`min(count * 0.02, 0.20)`, research `min(sum of levels, 0.30)` and
temporary buffs `min(sum of levels of buffs with expiresAt > now, 0.20)`. -/
def specCappedSum (st : ManagerState) (wallet : String) (now_ts : ℤ)
    (data : LeverageData) (ch : Character) : ℚ :=
  min (((st.territories.filter (fun t => t.controlledBy = some wallet)).length : ℚ)
      * (5/100)) (3/10)
  + min (((ch.resources.filter (fun r => r.2 > 0)).length : ℚ) * (5/100)) (2/10)
  + min (((((lookupA st.missions wallet).getD []).filter
        (fun m => m.progress = 100)).length : ℚ) * (25/1000)
      + ((((lookupA st.missions wallet).getD []).filter
        (fun m => 0 < m.progress ∧ m.progress < 100)).length : ℚ) * (1/100)) (25/100)
  + min ((ch.level - 1) * (5/100)) (25/100)
  + min ((((lookupA st.achievements wallet).getD []).length : ℚ) * (2/100)) (2/10)
  + min (((data.research.getD []).map (fun p => p.2)).sum) (3/10)
  + min ((((data.temp_buffs.getD []).filter
      (fun p => decide (now_ts < p.2.expires_at))).map (fun p => p.2.level)).sum) (2/10)

theorem ite_pos_of_nonneg (v : ℚ) (h : 0 ≤ v) : (if v > 0 then v else 0) = v := by
  by_cases h' : v > 0
  · rw [if_pos h']
  · rw [if_neg h']
    linarith

theorem sum_entry_value (c : Prop) [Decidable c] (k : String) (e : BonusEntry) :
    (((if c then [(k, e)] else []).map (fun p => p.2.value)).sum : ℚ)
      = if c then e.value else 0 := by
  by_cases h : c <;> simp [h]

theorem territory_bonus_nonneg (st : ManagerState) (w : String) :
    0 ≤ territory_bonus st w := by
  unfold territory_bonus
  refine le_min (by positivity) (by norm_num)

theorem resource_bonus_nonneg (ch : Character) : 0 ≤ resource_bonus ch := by
  unfold resource_bonus
  refine le_min (by positivity) (by norm_num)

theorem mission_bonus_nonneg (ms : List Mission) : 0 ≤ mission_bonus ms := by
  unfold mission_bonus
  refine le_min (by positivity) (by norm_num)

theorem level_bonus_nonneg (ch : Character) (h : 1 ≤ ch.level) :
    0 ≤ level_bonus ch := by
  unfold level_bonus
  refine le_min (mul_nonneg (by linarith) (by norm_num)) (by norm_num)

theorem achievement_bonus_nonneg (st : ManagerState) (w : String) :
    0 ≤ achievement_bonus st w := by
  unfold achievement_bonus
  refine le_min (by positivity) (by norm_num)

theorem research_total_nonneg (data : LeverageData)
    (h : ∀ p ∈ data.research.getD [], 0 ≤ p.2) : 0 ≤ research_total data := by
  unfold research_total
  refine le_min (List.sum_nonneg (fun x hx => ?_)) (by norm_num)
  rcases List.mem_map.mp hx with ⟨p, hp, rfl⟩
  exact h p hp

theorem temp_total_nonneg (data : LeverageData) (now_ts : ℤ) :
    0 ≤ temp_total data now_ts := by
  unfold temp_total
  refine le_min (List.sum_nonneg (fun x hx => ?_)) (by norm_num)
  rcases List.mem_map.mp hx with ⟨p, hp, rfl⟩
  rcases List.mem_filter.mp hp with ⟨_, hcond⟩
  rw [decide_eq_true_eq] at hcond
  exact le_of_lt hcond.2

theorem resource_bonus_of_empty (ch : Character) (h : ch.resources.isEmpty = true) :
    resource_bonus ch = 0 := by
  unfold resource_bonus unique_resources
  rw [List.isEmpty_iff.mp h]
  norm_num

theorem mission_bonus_nil : mission_bonus [] = 0 := by
  unfold mission_bonus completed_missions active_missions
  norm_num

/-- The code's realized bonus sum equals the spec's capped-contribution sum
on valid profiles (level at least 1, nonnegative research levels, strictly
positive temp-buff levels). -/
theorem levBonuses_sum (st : ManagerState) (w : String) (now_ts : ℤ)
    (data : LeverageData) (ch : Character)
    (hlev : 1 ≤ ch.level)
    (hres : ∀ p ∈ data.research.getD [], 0 ≤ p.2)
    (hbuf : ∀ p ∈ data.temp_buffs.getD [], 0 < p.2.level) :
    ((levBonuses st w now_ts data ch).map (fun p => p.2.value)).sum
      = specCappedSum st w now_ts data ch := by
  have hfilter : (data.temp_buffs.getD []).filter
      (fun p => decide (now_ts < p.2.expires_at ∧ 0 < p.2.level))
      = (data.temp_buffs.getD []).filter (fun p => decide (now_ts < p.2.expires_at)) := by
    refine List.filter_congr (fun p hp => ?_)
    have := hbuf p hp
    by_cases h1 : now_ts < p.2.expires_at <;> simp [h1, this]
  have h1 : (((if territory_bonus st w > 0 then
      [("territory", (⟨territory_bonus st w,
        "Controlling " ++ toString (territory_count st w) ++ " territories",
        3/10, territory_bonus st w / (3/10)⟩ : BonusEntry))] else []).map
      (fun p => p.2.value)).sum : ℚ) = territory_bonus st w := by
    rw [sum_entry_value]
    exact ite_pos_of_nonneg _ (territory_bonus_nonneg st w)
  have h2 : (((if ch.resources.isEmpty then []
      else if resource_bonus ch > 0 then
        [("resources", (⟨resource_bonus ch,
          "Diversified " ++ toString (unique_resources ch) ++ " resource types",
          2/10, resource_bonus ch / (2/10)⟩ : BonusEntry))] else []).map
      (fun p => p.2.value)).sum : ℚ) = resource_bonus ch := by
    by_cases he : ch.resources.isEmpty
    · rw [if_pos he, resource_bonus_of_empty ch he]
      simp
    · rw [if_neg he, sum_entry_value]
      exact ite_pos_of_nonneg _ (resource_bonus_nonneg ch)
  have h3 : (((if (lookupA st.missions w).isSome then
        if mission_bonus ((lookupA st.missions w).getD []) > 0 then
          [("missions", (⟨mission_bonus ((lookupA st.missions w).getD []),
            toString (completed_missions ((lookupA st.missions w).getD []))
              ++ " completed, "
              ++ toString (active_missions ((lookupA st.missions w).getD []))
              ++ " active missions",
            25/100, mission_bonus ((lookupA st.missions w).getD []) / (25/100)⟩
              : BonusEntry))] else []
      else []).map (fun p => p.2.value)).sum : ℚ)
      = mission_bonus ((lookupA st.missions w).getD []) := by
    by_cases hm : (lookupA st.missions w).isSome
    · rw [if_pos hm, sum_entry_value]
      exact ite_pos_of_nonneg _ (mission_bonus_nonneg _)
    · rw [if_neg hm, Option.not_isSome_iff_eq_none.mp hm]
      simp [mission_bonus_nil]
  have h4 : (((if level_bonus ch > 0 then
      [("level", (⟨level_bonus ch,
        "Level " ++ toString ch.level ++ " progression",
        25/100, level_bonus ch / (25/100)⟩ : BonusEntry))] else []).map
      (fun p => p.2.value)).sum : ℚ) = level_bonus ch := by
    rw [sum_entry_value]
    exact ite_pos_of_nonneg _ (level_bonus_nonneg ch hlev)
  have h5 : (((if achievement_bonus st w > 0 then
      [("achievements", (⟨achievement_bonus st w,
        toString (achievement_count st w) ++ " achievements unlocked",
        2/10, achievement_bonus st w / (2/10)⟩ : BonusEntry))] else []).map
      (fun p => p.2.value)).sum : ℚ) = achievement_bonus st w := by
    rw [sum_entry_value]
    exact ite_pos_of_nonneg _ (achievement_bonus_nonneg st w)
  have h6 : (((if research_total data > 0 then
      [("research", (⟨research_total data, "Technology advancements",
        3/10, research_total data / (3/10)⟩ : BonusEntry))] else []).map
      (fun p => p.2.value)).sum : ℚ) = research_total data := by
    rw [sum_entry_value]
    exact ite_pos_of_nonneg _ (research_total_nonneg data hres)
  have h7 : (((if temp_total data now_ts > 0 then
      [("temp_buffs", (⟨temp_total data now_ts, "Recent research deployments",
        2/10, temp_total data now_ts / (2/10)⟩ : BonusEntry))] else []).map
      (fun p => p.2.value)).sum : ℚ) = temp_total data now_ts := by
    rw [sum_entry_value]
    exact ite_pos_of_nonneg _ (temp_total_nonneg data now_ts)
  unfold levBonuses
  rw [List.map_append, List.sum_append, List.map_append, List.sum_append,
    List.map_append, List.sum_append, List.map_append, List.sum_append,
    List.map_append, List.sum_append, List.map_append, List.sum_append]
  rw [h1, h2, h3, h4, h5, h6, h7]
  unfold specCappedSum territory_bonus territory_count resource_bonus unique_resources
  unfold mission_bonus completed_missions active_missions level_bonus
  unfold achievement_bonus achievement_count research_total temp_total temp_cleaned
  rw [hfilter]

/-- Claim C1: for every known player (wallet present in both
`leverage_data` and `characters`) with a valid profile (level at least 1,
nonnegative research levels, positive temp-buff levels), the scoring call
returns a structured record whose `total` equals
`clamp(1.0 + sum of the capped bonus contributions, 1.0, 2.0)` (the capped
contributions written independently, following the spec's formulas) and
satisfies `1.0 <= total <= 2.0`. -/
theorem c1_total_bounded (st : ManagerState) (w : String) (now_ts : ℤ)
    (data : LeverageData) (ch : Character)
    (hd : lookupA st.leverage_data w = some data)
    (hc : lookupA st.characters w = some ch)
    (hlev : 1 ≤ ch.level)
    (hres : ∀ p ∈ data.research.getD [], 0 ≤ p.2)
    (hbuf : ∀ p ∈ data.temp_buffs.getD [], 0 < p.2.level) :
    ∃ r, (calculate_leverage_multiplier st w now_ts).1 = LevResult.record r ∧
      r.total = min (max (1 + specCappedSum st w now_ts data ch) 1) 2 ∧
      1 ≤ r.total ∧ r.total ≤ 2 := by
  simp only [calculate_leverage_multiplier, hd, hc]
  refine ⟨_, rfl, ?_, ?_, ?_⟩
  · show min (max (1 + ((levBonuses st w now_ts data ch).map (fun p => p.2.value)).sum) 1) 2
      = min (max (1 + specCappedSum st w now_ts data ch) 1) 2
    rw [levBonuses_sum st w now_ts data ch hlev hres hbuf]
  · exact le_min (le_max_right _ _) one_le_two
  · exact min_le_right _ _

/-- Witness for `c1_total_bounded`: a freshly created level-1 player with no
territories, resources, missions, achievements, research or buffs; the total
is `clamp(1 + 0, 1, 2) = 1`. -/
theorem c1_total_bounded_witness :
    ∃ r, (calculate_leverage_multiplier
        ⟨[("w", ⟨"n", "f", 1, 0, []⟩)], [], [], [("w", initialLeverageData)], []⟩
        "w" 0).1 = LevResult.record r ∧
      r.total = min (max (1 + specCappedSum
        ⟨[("w", ⟨"n", "f", 1, 0, []⟩)], [], [], [("w", initialLeverageData)], []⟩
        "w" 0 initialLeverageData ⟨"n", "f", 1, 0, []⟩) 1) 2 ∧
      1 ≤ r.total ∧ r.total ≤ 2 :=
  c1_total_bounded
    ⟨[("w", ⟨"n", "f", 1, 0, []⟩)], [], [], [("w", initialLeverageData)], []⟩
    "w" 0 initialLeverageData ⟨"n", "f", 1, 0, []⟩
    (by simp [lookupA]) (by simp [lookupA]) (by norm_num)
    (by simp [initialLeverageData]) (by simp [initialLeverageData])

/-! ### Pruning of expired temporary buffs (claim C3) -/

theorem temp_cleaned_idem (data : LeverageData) (now_ts : ℤ) :
    temp_cleaned { data with temp_buffs := some ((data.temp_buffs.getD []).filter
        (fun p => decide (now_ts < p.2.expires_at))) } now_ts
      = temp_cleaned data now_ts := by
  unfold temp_cleaned
  simp only [Option.getD_some]
  rw [List.filter_filter]
  refine List.filter_congr (fun p hp => ?_)
  by_cases h1 : now_ts < p.2.expires_at <;> by_cases h2 : 0 < p.2.level <;>
    simp [h1, h2]

/-- Claim C3: for a known player, after a scoring call the stored profile's
`temp_buffs` contains no entry with `expires_at <= now` (every expired entry
has been dropped), and the returned value is identical to what the call
returns on a state whose stored buffs were already stripped of expired
entries — so expired buffs contribute nothing to the returned total. -/
theorem c3_expired_buffs_pruned (st : ManagerState) (w : String) (now_ts : ℤ)
    (data : LeverageData) (ch : Character)
    (hd : lookupA st.leverage_data w = some data)
    (hc : lookupA st.characters w = some ch) :
    (∃ data', lookupA (calculate_leverage_multiplier st w now_ts).2.leverage_data w
        = some data' ∧
      ∀ p ∈ data'.temp_buffs.getD [], now_ts < p.2.expires_at) ∧
    (calculate_leverage_multiplier st w now_ts).1 =
      (calculate_leverage_multiplier
        { st with leverage_data := (updateA st.leverage_data w
            { data with temp_buffs := some ((data.temp_buffs.getD []).filter
                (fun p => decide (now_ts < p.2.expires_at))) }) } w now_ts).1 := by
  constructor
  · simp only [calculate_leverage_multiplier, hd, hc, levCore]
    refine ⟨levDataAfter st w now_ts data ch, lookupA_updateA_self _ _ _,
      fun p hp => ?_⟩
    have hproj : (levDataAfter st w now_ts data ch).temp_buffs
        = some (temp_cleaned data now_ts) := rfl
    rw [hproj, Option.getD_some] at hp
    rcases List.mem_filter.mp hp with ⟨_, hcond⟩
    rw [decide_eq_true_eq] at hcond
    exact hcond.1
  · have hdF : lookupA (updateA st.leverage_data w
        { data with temp_buffs := some ((data.temp_buffs.getD []).filter
            (fun p => decide (now_ts < p.2.expires_at))) }) w
        = some { data with temp_buffs := some ((data.temp_buffs.getD []).filter
            (fun p => decide (now_ts < p.2.expires_at))) } :=
      lookupA_updateA_self _ _ _
    simp only [calculate_leverage_multiplier, hd, hc, hdF]
    simp only [levCore, levBonuses, temp_total, temp_cleaned_idem]
    rfl

/-- Witness for `c3_expired_buffs_pruned`: a player holding one expired buff
(`expires_at = 0 <= now = 5`) and one live buff (`expires_at = 100`). -/
theorem c3_expired_buffs_witness :
    (∃ data', lookupA (calculate_leverage_multiplier
        ⟨[("w", ⟨"n", "f", 1, 0, []⟩)], [], [],
         [("w", ⟨6/5, none, none, none, none, none, none,
            some [("a", ⟨1/20, 0⟩), ("b", ⟨1/20, 100⟩)]⟩)], []⟩ "w" 5).2.leverage_data "w"
        = some data' ∧
      ∀ p ∈ data'.temp_buffs.getD [], (5 : ℤ) < p.2.expires_at) ∧
    (calculate_leverage_multiplier
        ⟨[("w", ⟨"n", "f", 1, 0, []⟩)], [], [],
         [("w", ⟨6/5, none, none, none, none, none, none,
            some [("a", ⟨1/20, 0⟩), ("b", ⟨1/20, 100⟩)]⟩)], []⟩ "w" 5).1 =
      (calculate_leverage_multiplier
        { (⟨[("w", ⟨"n", "f", 1, 0, []⟩)], [], [],
           [("w", ⟨6/5, none, none, none, none, none, none,
              some [("a", ⟨1/20, 0⟩), ("b", ⟨1/20, 100⟩)]⟩)], []⟩ : ManagerState) with
          leverage_data := (updateA
            (⟨[("w", ⟨"n", "f", 1, 0, []⟩)], [], [],
             [("w", ⟨6/5, none, none, none, none, none, none,
                some [("a", ⟨1/20, 0⟩), ("b", ⟨1/20, 100⟩)]⟩)], []⟩
              : ManagerState).leverage_data "w"
            { (⟨6/5, none, none, none, none, none, none,
                some [("a", ⟨1/20, 0⟩), ("b", ⟨1/20, 100⟩)]⟩ : LeverageData) with
              temp_buffs := some (((⟨6/5, none, none, none, none, none, none,
                  some [("a", ⟨1/20, 0⟩), ("b", ⟨1/20, 100⟩)]⟩
                    : LeverageData).temp_buffs.getD []).filter
                (fun p => decide ((5 : ℤ) < p.2.expires_at))) }) } "w" 5).1 :=
  c3_expired_buffs_pruned
    ⟨[("w", ⟨"n", "f", 1, 0, []⟩)], [], [],
     [("w", ⟨6/5, none, none, none, none, none, none,
        some [("a", ⟨1/20, 0⟩), ("b", ⟨1/20, 100⟩)]⟩)], []⟩ "w" 5
    ⟨6/5, none, none, none, none, none, none,
      some [("a", ⟨1/20, 0⟩), ("b", ⟨1/20, 100⟩)]⟩ ⟨"n", "f", 1, 0, []⟩
    (by simp [lookupA]) (by simp [lookupA])

end Honey
